import Mathlib

/-!
Shallow embedding of the Amazon profit-calculator ledger component
(`src/app/app.ts`): the item data model, the derived aggregates, the
mutation operations, and the JSON/CSV import-export paths, together with
proofs about them.  JavaScript numbers are modelled as exact rationals;
the ECMAScript coercions used by the source (`Number(x)`, `x || 0`,
number-to-string conversion) are modelled on the fragment of values this
component can encounter.
-/

/-- An item record (`interface Item` in `app.ts`); the four numeric
fields are modelled as rationals. -/
structure Item where
  id : String
  name : String
  price : ℚ
  cost : ℚ
  amazonFees : ℚ
  sold : ℚ
deriving DecidableEq

/-- JSON values, as produced by `JSON.parse`. -/
inductive JsonVal where
  | null : JsonVal
  | bool : Bool → JsonVal
  | num : ℚ → JsonVal
  | str : String → JsonVal
  | arr : List JsonVal → JsonVal
  | obj : List (String × JsonVal) → JsonVal

/-- `x || 0` on a JavaScript number: `0` (as well as `-0` and `NaN`,
which have no exact-rational representative) is falsy and replaced by
`0`; every other number is returned unchanged.  On exact rationals this
is the identity, kept explicit to mirror the source. -/
def orZero (x : ℚ) : ℚ := if x = 0 then 0 else x

/-- Numeric value of a list of decimal digit characters. -/
def digitsToNat (cs : List Char) : Nat :=
  cs.foldl (fun a c => a * 10 + (c.toNat - 48)) 0

/-- The whitespace stripping ECMAScript performs before converting a
string to a number. -/
def jsTrim (cs : List Char) : List Char :=
  ((cs.dropWhile Char.isWhitespace).reverse.dropWhile Char.isWhitespace).reverse

/-- Models ECMAScript string-to-number conversion (the `Number(s)` call
in the sanitizers), returning `none` for `NaN`, on the decimal fragment:
optional surrounding whitespace, optional sign, integer digits, optional
fractional digits; the empty or all-whitespace string converts to `0`.
Exponent, hex, and `Infinity` forms — which this application never
produces and no claim exercises — are modelled as `NaN`. -/
def parseJsNumber (s : String) : Option ℚ :=
  match jsTrim s.toList with
  | [] => some 0
  | cs =>
    let sr : ℚ × List Char :=
      match cs with
      | '-' :: r => (-1, r)
      | '+' :: r => (1, r)
      | r => (1, r)
    let intDs := sr.2.takeWhile Char.isDigit
    let rest := sr.2.dropWhile Char.isDigit
    match rest with
    | [] => if intDs.isEmpty then none else some (sr.1 * digitsToNat intDs)
    | '.' :: fr =>
      if fr.all Char.isDigit && (!intDs.isEmpty || !fr.isEmpty) then
        some (sr.1 * ((digitsToNat intDs : ℚ) + (digitsToNat fr : ℚ) / (10 : ℚ) ^ fr.length))
      else none
    | _ => none

/-- Models ECMAScript `Number(v)` on a JSON field value; argument `none`
is a missing field (`undefined`), result `none` is `NaN`.  A nonempty
array is modelled as `NaN` (such inputs never arise from this
application's own files and no claim exercises them). -/
def toNumber : Option JsonVal → Option ℚ
  | none => none
  | some JsonVal.null => some 0
  | some (JsonVal.bool b) => some (if b then 1 else 0)
  | some (JsonVal.num q) => some q
  | some (JsonVal.str s) => parseJsNumber s
  | some (JsonVal.arr []) => some 0
  | some (JsonVal.arr (_ :: _)) => none
  | some (JsonVal.obj _) => none

/-- `Number(v) || 0`: `NaN` (and zero itself) collapse to `0`. -/
def numOr0 : Option ℚ → ℚ
  | none => 0
  | some q => orZero q

/-- First binding of a key in a JSON object's field list. -/
def getField (k : String) : List (String × JsonVal) → Option JsonVal
  | [] => none
  | (k', v) :: rest => if k' = k then some v else getField k rest

/-- Field list of a parsed JSON entry that survives property assignment:
objects carry their fields; arrays accept new properties but have none of
the named fields. -/
def fieldsOf : JsonVal → List (String × JsonVal)
  | JsonVal.obj fs => fs
  | _ => []

/-- Whether `p.price = …` succeeds on entry `p`: in strict mode (the
component is an ES module) setting a property on a primitive or on
`null` throws a `TypeError`; only objects and arrays accept it. -/
def assignable : JsonVal → Bool
  | JsonVal.obj _ => true
  | JsonVal.arr _ => true
  | _ => false

/-- Whether a JSON value is an array (`Array.isArray`). -/
def isArr : JsonVal → Bool
  | JsonVal.arr _ => true
  | _ => false

/-- `Number(p.k) || 0` for a named field of an entry. -/
def fieldNum (fs : List (String × JsonVal)) (k : String) : ℚ :=
  numOr0 (toNumber (getField k fs))

/-- The `name` field of an entry; sanitization never touches it.  A
missing or non-string name is modelled as the empty display string. -/
def entryName (fs : List (String × JsonVal)) : String :=
  match getField "name" fs with
  | some (JsonVal.str s) => s
  | _ => ""

/-- `if (!p.id) p.id = generated` in `uploadJSON`: a missing or falsy
`id` is replaced by the generated one, a non-empty string id is kept.
(Truthy non-string ids never arise from this application's own files and
are modelled as replaced.) -/
def entryIdUpload (fs : List (String × JsonVal)) (g : String) : String :=
  match getField "id" fs with
  | some (JsonVal.str s) => if s = "" then g else s
  | _ => g

/-- One entry of the import path after sanitization. -/
def sanitizeImport (fs : List (String × JsonVal)) (g : String) : Item :=
  { id := entryIdUpload fs g
    name := entryName fs
    price := fieldNum fs "price"
    cost := fieldNum fs "cost"
    amazonFees := fieldNum fs "amazonFees"
    sold := fieldNum fs "sold" }

/-- One entry of the load path after sanitization; the constructor does
not backfill ids, so a missing or non-string id stays absent, modelled
as `""`. -/
def sanitizeLoad (fs : List (String × JsonVal)) : Item :=
  { id := match getField "id" fs with
          | some (JsonVal.str s) => s
          | _ => ""
    name := entryName fs
    price := fieldNum fs "price"
    cost := fieldNum fs "cost"
    amazonFees := fieldNum fs "amazonFees"
    sold := fieldNum fs "sold" }

/-- `totalSold`: `items.reduce((s, it) => s + (it.sold || 0), 0)`. -/
def totalSold (items : List Item) : ℚ :=
  items.foldl (fun s it => s + orZero it.sold) 0

/-- `totalRevenue`: `items.reduce((s, it) => s + (it.price || 0) * (it.sold || 0), 0)`. -/
def totalRevenue (items : List Item) : ℚ :=
  items.foldl (fun s it => s + orZero it.price * orZero it.sold) 0

/-- `totalCost`: `items.reduce((s, it) => s + (it.cost || 0) * (it.sold || 0), 0)`. -/
def totalCost (items : List Item) : ℚ :=
  items.foldl (fun s it => s + orZero it.cost * orZero it.sold) 0

/-- `totalFees`: `items.reduce((s, it) => s + (it.amazonFees || 0) * (it.sold || 0), 0)`. -/
def totalFees (items : List Item) : ℚ :=
  items.foldl (fun s it => s + orZero it.amazonFees * orZero it.sold) 0

/-- `totalProfit`: `totalRevenue() - totalCost() - totalFees()`. -/
def totalProfit (items : List Item) : ℚ :=
  totalRevenue items - totalCost items - totalFees items

/-- `perItemProfit`: `((price || 0) - (cost || 0) - (amazonFees || 0)) * (sold || 0)`. -/
def perItemProfit (it : Item) : ℚ :=
  (orZero it.price - orZero it.cost - orZero it.amazonFees) * orZero it.sold

/-- The number normalization performed at the top of `addOrUpdate`
(`val.price = Number(val.price) || 0` and so on; `Number` of a number is
the identity). -/
def normalizeNums (val : Item) : Item :=
  { val with price := orZero val.price, cost := orZero val.cost,
             amazonFees := orZero val.amazonFees, sold := orZero val.sold }

/-- `addOrUpdate`: bail out when the form is invalid, normalize the four
numeric fields, then replace in place when the draft carries a truthy
(non-empty) id, and append a copy under a freshly generated id
otherwise. -/
def addOrUpdate (valid : Bool) (val : Item) (newId : String) (arr : List Item) : List Item :=
  if valid then
    if (normalizeNums val).id ≠ "" then
      arr.map fun i => if i.id = (normalizeNums val).id then normalizeNums val else i
    else arr ++ [{ normalizeNums val with id := newId }]
  else arr

/-- `remove`: `arr.filter((i) => i.id !== item.id)`. -/
def remove (item : Item) (arr : List Item) : List Item :=
  arr.filter fun i => i.id != item.id

/-- The constructor's load.  The durable slot is modelled by its parse
outcome: `none` is an absent key, `some none` a present key whose
contents make `JSON.parse` throw, `some (some v)` a key parsing to `v`.
A parsed non-array (which has no `forEach`) and an array holding a
primitive entry (on which the property assignment throws) both land in
the `catch`, which logs and leaves the ledger empty; the function is
total, so loading never fails the process. -/
def loadLedger : Option (Option JsonVal) → List Item
  | none => []
  | some none => []
  | some (some (JsonVal.arr xs)) =>
    if xs.all assignable then xs.map (fun v => sanitizeLoad (fieldsOf v)) else []
  | some (some _) => []

/-- `JSON.stringify` of one item, represented by the JSON value it
serializes to; stringify emits the fields in declaration order and
`JSON.parse` inverts it exactly on these values. -/
def itemToJson (it : Item) : JsonVal :=
  JsonVal.obj [("id", JsonVal.str it.id), ("name", JsonVal.str it.name),
    ("price", JsonVal.num it.price), ("cost", JsonVal.num it.cost),
    ("amazonFees", JsonVal.num it.amazonFees), ("sold", JsonVal.num it.sold)]

/-- `saveLocal`: the durable slot after the write-through, again
represented by the parse outcome of the stored string. -/
def saveLocal (items : List Item) : Option (Option JsonVal) :=
  some (some (JsonVal.arr (items.map itemToJson)))

/-- The `data.forEach(...)` of `uploadJSON`: sanitize each entry in
order, drawing one generated id per entry (used only when the entry's id
is missing or falsy). -/
def sanitizeList (gen : Nat → String) : Nat → List JsonVal → List Item
  | _, [] => []
  | i, v :: vs => sanitizeImport (fieldsOf v) (gen i) :: sanitizeList gen (i + 1) vs

/-- `uploadJSON`, given the parse outcome of the selected file (`none`
means `JSON.parse` threw).  Returns the ledger, the durable slot and the
user-visible message once the load handler has run.  A primitive entry
inside the array makes the strict-mode property assignment throw, which
the surrounding `catch` turns into the invalid-file alert, leaving the
ledger and slot untouched. -/
def uploadJSON (parsed : Option JsonVal) (gen : Nat → String) (items0 : List Item)
    (slot0 : Option (Option JsonVal)) :
    List Item × Option (Option JsonVal) × Option String :=
  match parsed with
  | none => (items0, slot0, some "Invalid JSON file")
  | some (JsonVal.arr xs) =>
    if xs.all assignable then
      (sanitizeList gen 0 xs, saveLocal (sanitizeList gen 0 xs), none)
    else (items0, slot0, some "Invalid JSON file")
  | some _ => (items0, slot0, some "Uploaded JSON must be an array of items")

/-- Decimal digits of `r / d` (with `r < d`) by long division, with
fuel; the expansion of every value the application prints terminates
well inside the fuel. -/
def fracDigits : Nat → Nat → Nat → String
  | 0, _, _ => ""
  | _ + 1, 0, _ => ""
  | fuel + 1, r, d =>
    String.singleton (Nat.digitChar (r * 10 / d)) ++ fracDigits fuel (r * 10 % d) d

/-- Models `String(x)` on a JavaScript number under the exact-rational
semantics: sign, integer part, then a decimal point and the fractional
digits when the value is not an integer. -/
def jsNumToString (q : ℚ) : String :=
  let n := q.num.natAbs
  let d := q.den
  (if q < 0 then "-" else "") ++ toString (n / d) ++
    (if n % d = 0 then "" else "." ++ fracDigits 17 (n % d) d)

/-- `Array.prototype.join`: pieces joined by a separator. -/
def joinSep (sep : String) : List String → String
  | [] => ""
  | [r] => r
  | r :: rs => r ++ sep ++ joinSep sep rs

/-- `cell.replace(/"/g, s)` for one character: every double quote is
doubled. -/
def escQuotes : List Char → List Char
  | [] => []
  | c :: cs => if c = '\"' then '\"' :: '\"' :: escQuotes cs else c :: escQuotes cs

/-- `exportCSV`: header row, one row per item ending in `perItemProfit`,
a trailing totals row, each cell stringified, its quotes doubled, and
wrapped in double quotes; rows joined by newline. -/
def exportCSV (items : List Item) : String :=
  let header := ["name", "price", "cost", "amazonFees", "sold", "profit"]
  let rows := items.map fun it =>
    [it.name, jsNumToString it.price, jsNumToString it.cost, jsNumToString it.amazonFees,
     jsNumToString it.sold, jsNumToString (perItemProfit it)]
  let totalsRow := ["TOTALS", jsNumToString (totalRevenue items), jsNumToString (totalCost items),
    jsNumToString (totalFees items), jsNumToString (totalSold items),
    jsNumToString (totalProfit items)]
  let allRows := [header] ++ rows ++ [totalsRow]
  joinSep "\n" (allRows.map fun r =>
    joinSep "," (r.map fun cell => "\"" ++ String.mk (escQuotes cell.toList) ++ "\""))

/-- Spec formulation of one CSV cell: quoted, inner quotes doubled. -/
def csvCellSpec (s : String) : String := "\"" ++ String.mk (escQuotes s.toList) ++ "\""

/-- Spec formulation of one CSV row: quoted cells joined by commas. -/
def csvRowSpec (cells : List String) : String :=
  joinSep "," (cells.map csvCellSpec)

/-- Spec formulation of the CSV header row. -/
def headerRowSpec : String :=
  csvRowSpec ["name", "price", "cost", "amazonFees", "sold", "profit"]

/-- Spec formulation of one CSV data row: the item's fields followed by
its per-item profit. -/
def dataRowSpec (it : Item) : String :=
  csvRowSpec [it.name, jsNumToString it.price, jsNumToString it.cost,
    jsNumToString it.amazonFees, jsNumToString it.sold, jsNumToString (perItemProfit it)]

/-- Spec formulation of the trailing CSV totals row. -/
def totalsRowSpec (items : List Item) : String :=
  csvRowSpec ["TOTALS", jsNumToString (totalRevenue items), jsNumToString (totalCost items),
    jsNumToString (totalFees items), jsNumToString (totalSold items),
    jsNumToString (totalProfit items)]

/-- Spec formulation of the whole CSV document. -/
def exportCSVSpec (items : List Item) : String :=
  joinSep "\n" (headerRowSpec :: items.map dataRowSpec ++ [totalsRowSpec items])

/-- The two-item scenario of spec §8.6. -/
def exampleItems : List Item :=
  [{ id := "a1", name := "a", price := 10, cost := 4, amazonFees := 1, sold := 3 },
   { id := "b2", name := "b", price := 20, cost := 10, amazonFees := 2, sold := 1 }]

/-- A reachable ledger holding an item with an empty id (the load path
does not backfill ids). -/
def badLedger : List Item :=
  [{ id := "", name := "a", price := 1, cost := 2, amazonFees := 3, sold := 4 }]

/-- A field input that is missing, non-numeric (`NaN`), or a
non-negative number. -/
def numInputOk (v : Option JsonVal) : Prop :=
  toNumber v = none ∨ ∃ q, toNumber v = some q ∧ 0 ≤ q

/-! ## Helper lemmas -/

@[simp]
lemma orZero_eq (x : ℚ) : orZero x = x := by
  by_cases h : x = 0 <;> simp [orZero, h]

lemma foldl_add_map (f : Item → ℚ) (l : List Item) (a : ℚ) :
    l.foldl (fun s it => s + f it) a = a + (l.map f).sum := by
  induction l generalizing a with
  | nil => simp
  | cons x xs ih => simp [List.foldl_cons, ih, add_assoc]

lemma numOr0_nonneg (v : Option ℚ) (h : v = none ∨ ∃ q, v = some q ∧ 0 ≤ q) :
    0 ≤ numOr0 v := by
  rcases h with h | ⟨q, hq, hq0⟩ <;> simp [numOr0, *]

lemma map_if_id (arr : List Item) (v : Item) (s : String)
    (h : ∀ i ∈ arr, i.id ≠ s) :
    arr.map (fun i => if i.id = s then v else i) = arr := by
  induction arr with
  | nil => rfl
  | cons x xs ih =>
    simp only [List.map_cons]
    rw [if_neg (h x (by simp)), ih fun i hi => h i (by simp [hi])]


/-! ## Claim theorems -/

/-- C1: the five aggregate reads satisfy their reference definitions
(`totalSold` is the sum of `sold`, `totalRevenue` the sum of
`price * sold`, `totalCost` the sum of `cost * sold`, `totalFees` the
sum of `amazonFees * sold`, and `totalProfit` is revenue minus cost
minus fees), all five vanish on the empty collection, and on the
two-item scenario of spec §8.6 they are 4, 50, 22, 5 and 23. -/
theorem totals_correct :
    (∀ items : List Item,
      totalSold items = (items.map Item.sold).sum ∧
      totalRevenue items = (items.map fun it => it.price * it.sold).sum ∧
      totalCost items = (items.map fun it => it.cost * it.sold).sum ∧
      totalFees items = (items.map fun it => it.amazonFees * it.sold).sum ∧
      totalProfit items = totalRevenue items - totalCost items - totalFees items) ∧
    (totalSold [] = 0 ∧ totalRevenue [] = 0 ∧ totalCost [] = 0 ∧ totalFees [] = 0 ∧
      totalProfit [] = 0) ∧
    (totalSold exampleItems = 4 ∧ totalRevenue exampleItems = 50 ∧
      totalCost exampleItems = 22 ∧ totalFees exampleItems = 5 ∧
      totalProfit exampleItems = 23) := by
  refine ⟨fun items => ⟨?_, ?_, ?_, ?_, rfl⟩,
      by with_unfolding_all decide, by with_unfolding_all decide⟩ <;>
    simp [totalSold, totalRevenue, totalCost, totalFees, foldl_add_map]

/-- C2: the per-item profit is `(price - cost - amazonFees) * sold`. -/
theorem perItemProfit_formula (it : Item) :
    perItemProfit it = (it.price - it.cost - it.amazonFees) * it.sold := by
  simp [perItemProfit]

/-- C5: an update call (non-empty id on the draft) whose id matches no
entry of the collection leaves the collection unchanged. -/
theorem update_unknown_id_noop (valid : Bool) (val : Item) (newId : String)
    (arr : List Item) (hid : val.id ≠ "") (hmiss : ∀ i ∈ arr, i.id ≠ val.id) :
    addOrUpdate valid val newId arr = arr := by
  cases valid with
  | false => simp [addOrUpdate]
  | true =>
    have hnid : (normalizeNums val).id = val.id := rfl
    simp only [addOrUpdate, if_true, hnid]
    rw [if_pos hid, map_if_id arr (normalizeNums val) val.id hmiss]

/-- Witness for C5 at a concrete input. -/
theorem update_unknown_id_noop_witness :
    addOrUpdate true
      { id := "zz", name := "n", price := 1, cost := 1, amazonFees := 1, sold := 1 }
      "fresh" exampleItems = exampleItems :=
  update_unknown_id_noop true
    { id := "zz", name := "n", price := 1, cost := 1, amazonFees := 1, sold := 1 }
    "fresh" exampleItems (by decide) (by decide)

/-- C6: loading from the durable slot never fails the process (the load
function is total): an absent slot yields the empty ledger, a present
slot whose contents fail `JSON.parse` yields the empty ledger (the
failure is caught and logged), and a present slot parsing to a non-array
value also yields the empty ledger. -/
theorem load_total (v : JsonVal) (hv : isArr v = false) :
    loadLedger none = [] ∧ loadLedger (some none) = [] ∧
    loadLedger (some (some v)) = [] := by
  refine ⟨rfl, rfl, ?_⟩
  cases v <;> simp_all [loadLedger, isArr]

/-- Witness for C6 at a concrete input. -/
theorem load_total_witness : loadLedger (some (some (JsonVal.obj []))) = [] :=
  (load_total (JsonVal.obj []) rfl).2.2

/-- C10: `remove` keeps exactly the entries whose id differs from the
given item's id, in their original relative order with all fields
unchanged (it is a sublist of the input); if several entries share the
id all are removed, and if none matches the collection is unchanged. -/
theorem remove_spec (item : Item) (arr : List Item) :
    (∀ x, x ∈ remove item arr ↔ x ∈ arr ∧ x.id ≠ item.id) ∧
    (remove item arr).Sublist arr ∧
    ((∀ x ∈ arr, x.id ≠ item.id) → remove item arr = arr) := by
  refine ⟨fun x => ?_, List.filter_sublist arr, fun h => ?_⟩
  · simp [remove, List.mem_filter]
  · rw [remove, List.filter_eq_self.mpr]
    intro a ha
    simpa using h a ha

/-- Witness for C10 at a concrete input. -/
theorem remove_spec_witness :
    remove { id := "zz9", name := "x", price := 0, cost := 0, amazonFees := 0, sold := 0 }
      exampleItems = exampleItems :=
  (remove_spec
    { id := "zz9", name := "x", price := 0, cost := 0, amazonFees := 0, sold := 0 }
    exampleItems).2.2 (by decide)

/-- The item the §8.5 import test expects, with generated id `g`. -/
def widgetItem (g : String) : Item :=
  { id := g, name := "Widget", price := 10, cost := 0, amazonFees := 0, sold := 5 }

/-- C3 fails as stated: importing an entry whose price is the (finite)
negative number `-5` leaves `-5` in the ledger — sanitization coerces
non-numeric and missing inputs to `0` but does not force numeric fields
to be non-negative. -/
theorem sanitize_not_nonneg :
    (uploadJSON (some (JsonVal.arr [JsonVal.obj [("id", JsonVal.str "x"),
        ("price", JsonVal.num (-5))]])) (fun _ => "g") [] none).1.map Item.price
      = [-5] ∧ ((-5 : ℚ) < 0) := by
  with_unfolding_all decide

/-- C3 (amended): after sanitization each of the four numeric fields is
a (finite) number; a non-numeric or missing input coerces to `0`, and a
non-negative numeric input stays non-negative — but a negative numeric
input passes through unchanged, on the load path and on the import path
alike, so non-negativity is not an invariant. -/
theorem sanitized_numeric_fields (fs : List (String × JsonVal)) (g : String)
    (hp : numInputOk (getField "price" fs)) (hc : numInputOk (getField "cost" fs))
    (hf : numInputOk (getField "amazonFees" fs)) (hs : numInputOk (getField "sold" fs)) :
    (0 ≤ (sanitizeImport fs g).price ∧ 0 ≤ (sanitizeImport fs g).cost ∧
     0 ≤ (sanitizeImport fs g).amazonFees ∧ 0 ≤ (sanitizeImport fs g).sold) ∧
    (0 ≤ (sanitizeLoad fs).price ∧ 0 ≤ (sanitizeLoad fs).cost ∧
     0 ≤ (sanitizeLoad fs).amazonFees ∧ 0 ≤ (sanitizeLoad fs).sold) ∧
    (toNumber (getField "price" fs) = none → (sanitizeImport fs g).price = 0) ∧
    (toNumber (getField "cost" fs) = none → (sanitizeImport fs g).cost = 0) ∧
    (toNumber (getField "amazonFees" fs) = none → (sanitizeImport fs g).amazonFees = 0) ∧
    (toNumber (getField "sold" fs) = none → (sanitizeImport fs g).sold = 0) := by
  refine ⟨⟨numOr0_nonneg _ hp, numOr0_nonneg _ hc, numOr0_nonneg _ hf, numOr0_nonneg _ hs⟩,
    ⟨numOr0_nonneg _ hp, numOr0_nonneg _ hc, numOr0_nonneg _ hf, numOr0_nonneg _ hs⟩,
    fun h => ?_, fun h => ?_, fun h => ?_, fun h => ?_⟩ <;>
      simp [sanitizeImport, fieldNum, h, numOr0]

/-- Witness for the amended C3 at a concrete input. -/
theorem sanitized_numeric_fields_witness :
    0 ≤ (sanitizeImport [("price", JsonVal.num 3)] "g").price ∧
    (sanitizeImport [("price", JsonVal.num 3)] "g").cost = 0 :=
  ⟨(sanitized_numeric_fields [("price", JsonVal.num 3)] "g"
      (Or.inr ⟨3, rfl, by decide⟩) (Or.inl rfl) (Or.inl rfl) (Or.inl rfl)).1.1,
   (sanitized_numeric_fields [("price", JsonVal.num 3)] "g"
      (Or.inr ⟨3, rfl, by decide⟩) (Or.inl rfl) (Or.inl rfl) (Or.inl rfl)).2.2.2.1 rfl⟩

/-- C4 fails as stated: the parsed value `[1]` is a JSON array, yet the
the import leaves the ledger and slot unchanged and raises the invalid-file
message, because the strict-mode property assignment on the primitive
entry throws inside the `try` block. -/
theorem upload_array_alert :
    isArr (JsonVal.arr [JsonVal.num 1]) = true ∧
    uploadJSON (some (JsonVal.arr [JsonVal.num 1])) (fun _ => "g") exampleItems none =
      (exampleItems, none, some "Invalid JSON file") := ⟨rfl, rfl⟩

/-- C4 (amended): import leaves the ledger and the durable slot
unchanged and surfaces a user-visible message exactly when the file is
not valid JSON, the parsed top-level value is not an array, or the array
contains an entry that is neither an object nor an array (on which the
sanitizing property assignment throws); when every entry is an object or
array, the import sanitizes every entry's four numeric fields, backfills
a freshly generated id on every entry missing one, replaces the whole
collection with the result and persists it to the durable slot.  The
§8.5 test: importing `[{"name":"Widget","price":"10","cost":"x","sold":5}]`
yields one item with price 10, cost 0, fees 0, sold 5 and the generated
id. -/
theorem uploadJSON_cases (parsed : Option JsonVal) (gen : Nat → String)
    (items0 : List Item) (slot0 : Option (Option JsonVal)) :
    (parsed = none →
      uploadJSON parsed gen items0 slot0 = (items0, slot0, some "Invalid JSON file")) ∧
    (∀ v, parsed = some v → isArr v = false →
      uploadJSON parsed gen items0 slot0 =
        (items0, slot0, some "Uploaded JSON must be an array of items")) ∧
    (∀ xs, parsed = some (JsonVal.arr xs) → xs.all assignable = false →
      uploadJSON parsed gen items0 slot0 = (items0, slot0, some "Invalid JSON file")) ∧
    (∀ xs, parsed = some (JsonVal.arr xs) → xs.all assignable = true →
      uploadJSON parsed gen items0 slot0 =
        (sanitizeList gen 0 xs, saveLocal (sanitizeList gen 0 xs), none)) ∧
    uploadJSON (some (JsonVal.arr [JsonVal.obj [("name", JsonVal.str "Widget"),
        ("price", JsonVal.str "10"), ("cost", JsonVal.str "x"),
        ("sold", JsonVal.num 5)]])) gen items0 slot0 =
      ([widgetItem (gen 0)], saveLocal [widgetItem (gen 0)], none) := by
  refine ⟨fun h => by rw [h]; rfl, fun v hv hva => ?_, fun xs hxs hall => ?_,
    fun xs hxs hall => ?_, by with_unfolding_all rfl⟩
  · subst hv
    cases v <;> simp_all [uploadJSON, isArr]
  · subst hxs
    simp [uploadJSON, hall]
  · subst hxs
    simp [uploadJSON, hall]

/-- Witness for the amended C4 at a concrete input. -/
theorem uploadJSON_cases_witness :
    uploadJSON none (fun _ => "g") exampleItems none =
      (exampleItems, none, some "Invalid JSON file") :=
  (uploadJSON_cases none (fun _ => "g") exampleItems none).1 rfl

/-! ## Round-trip helper lemmas -/

lemma all_assignable_map (items : List Item) :
    (items.map itemToJson).all assignable = true := by
  induction items with
  | nil => rfl
  | cons x xs ih => simp_all [itemToJson, assignable]

lemma sanitizeImport_itemToJson (it : Item) (g : String) (h : it.id ≠ "") :
    sanitizeImport (fieldsOf (itemToJson it)) g = it := by
  have hid : entryIdUpload (fieldsOf (itemToJson it)) g = if it.id = "" then g else it.id := rfl
  have hname : entryName (fieldsOf (itemToJson it)) = it.name := rfl
  have hp : fieldNum (fieldsOf (itemToJson it)) "price" = orZero it.price := rfl
  have hc : fieldNum (fieldsOf (itemToJson it)) "cost" = orZero it.cost := rfl
  have hf : fieldNum (fieldsOf (itemToJson it)) "amazonFees" = orZero it.amazonFees := rfl
  have hs : fieldNum (fieldsOf (itemToJson it)) "sold" = orZero it.sold := rfl
  cases it with
  | mk id name price cost fees sold =>
    simp_all [sanitizeImport]

lemma sanitizeList_map (gen : Nat → String) (items : List Item)
    (h : ∀ i ∈ items, i.id ≠ "") :
    ∀ n, sanitizeList gen n (items.map itemToJson) = items := by
  induction items with
  | nil => intro n; rfl
  | cons x xs ih =>
    intro n
    show sanitizeImport (fieldsOf (itemToJson x)) (gen n) ::
        sanitizeList gen (n + 1) (xs.map itemToJson) = x :: xs
    rw [sanitizeImport_itemToJson x (gen n) (h x (by simp)),
      ih (fun i hi => h i (by simp [hi])) (n + 1)]

/-- C7 fails as stated: a ledger holding an item with an empty id (such
ledgers are reachable, since the load path does not backfill ids) does
not round-trip — the import path backfills a fresh id, so the multiset
of field tuples changes. -/
theorem roundtrip_changes_empty_id :
    ¬ (uploadJSON (some (JsonVal.arr (badLedger.map itemToJson))) (fun _ => "g")
        badLedger none).1.Perm badLedger := by
  with_unfolding_all decide

/-- C7 (amended): for every ledger collection in which each item's id is
non-empty (which is every collection this application itself produces),
serializing to JSON, parsing, and bulk-replacing through the import path
yields exactly the original collection — in particular the same multiset
of field tuples. -/
theorem roundtrip_preserves (items : List Item) (gen : Nat → String)
    (slot0 : Option (Option JsonVal)) (h : ∀ i ∈ items, i.id ≠ "") :
    (uploadJSON (some (JsonVal.arr (items.map itemToJson))) gen items slot0).1 = items ∧
    (uploadJSON (some (JsonVal.arr (items.map itemToJson))) gen items slot0).1.Perm items := by
  have hres : (uploadJSON (some (JsonVal.arr (items.map itemToJson))) gen items slot0).1
      = items := by
    simp [uploadJSON, all_assignable_map items, sanitizeList_map gen items h 0]
  exact ⟨hres, by rw [hres]⟩

/-- Witness for the amended C7 at a concrete input. -/
theorem roundtrip_preserves_witness :
    (uploadJSON (some (JsonVal.arr (exampleItems.map itemToJson))) (fun _ => "g")
      exampleItems none).1 = exampleItems :=
  (roundtrip_preserves exampleItems (fun _ => "g") none (by decide)).1

/-! ## Id-uniqueness helper lemmas -/

lemma map_id_update (arr : List Item) (v : Item) :
    ((arr.map fun i => if i.id = v.id then v else i).map Item.id) = arr.map Item.id := by
  induction arr with
  | nil => rfl
  | cons x xs ih =>
    simp only [List.map_cons, ih]
    by_cases h : x.id = v.id <;> simp [h]

/-- C9 fails as stated: bulk-replace (and load) do not enforce id
uniqueness — loading a stored array with two entries of id `"a"` yields
a ledger whose ids are not pairwise distinct. -/
theorem load_duplicate_ids :
    ((loadLedger (some (some (JsonVal.arr [JsonVal.obj [("id", JsonVal.str "a")],
        JsonVal.obj [("id", JsonVal.str "a")]])))).map Item.id) = ["a", "a"] ∧
    ¬ (["a", "a"] : List String).Nodup := by
  with_unfolding_all decide

/-- C9 (amended): add, update and remove preserve order and pairwise
distinctness of ids (add appends the freshly generated id, update leaves
the id sequence unchanged, remove keeps a subsequence), provided the
generated id is fresh; import and load, however, adopt the input
sequence as is and do not enforce uniqueness. -/
theorem mutations_preserve_unique_ids (valid : Bool) (val : Item) (newId : String)
    (arr : List Item) (item : Item) (hnd : (arr.map Item.id).Nodup)
    (hfresh : newId ∉ arr.map Item.id) :
    ((addOrUpdate valid val newId arr).map Item.id = arr.map Item.id ∨
     (addOrUpdate valid val newId arr).map Item.id = arr.map Item.id ++ [newId]) ∧
    ((addOrUpdate valid val newId arr).map Item.id).Nodup ∧
    (remove item arr).Sublist arr ∧
    ((remove item arr).map Item.id).Nodup := by
  have hsub : (remove item arr).Sublist arr := List.filter_sublist arr
  have hrem : ((remove item arr).map Item.id).Nodup := hnd.sublist (hsub.map Item.id)
  cases valid with
  | false => exact ⟨Or.inl rfl, hnd, hsub, hrem⟩
  | true =>
    by_cases hid : (normalizeNums val).id ≠ ""
    · have h1 : addOrUpdate true val newId arr =
          arr.map fun i => if i.id = (normalizeNums val).id then normalizeNums val else i := by
        simp [addOrUpdate, hid]
      rw [h1, map_id_update]
      exact ⟨Or.inl rfl, hnd, hsub, hrem⟩
    · have h1 : addOrUpdate true val newId arr =
          arr ++ [{ normalizeNums val with id := newId }] := by
        simp [addOrUpdate, hid]
      rw [h1]
      refine ⟨Or.inr (by simp), ?_, hsub, hrem⟩
      simp [List.nodup_append, hnd, hfresh]

/-- Witness for the amended C9 at a concrete input. -/
theorem mutations_preserve_unique_ids_witness :
    ((addOrUpdate true
        { id := "", name := "c", price := 1, cost := 1, amazonFees := 1, sold := 2 }
        "c3" exampleItems).map Item.id).Nodup :=
  (mutations_preserve_unique_ids true
    { id := "", name := "c", price := 1, cost := 1, amazonFees := 1, sold := 2 }
    "c3" exampleItems
    { id := "", name := "c", price := 1, cost := 1, amazonFees := 1, sold := 2 }
    (by decide) (by decide)).2.1

/-- C8: CSV export is exactly the header row, one data row per item in
collection order whose last field is the per-item profit, and a trailing
totals row `TOTALS, revenue, cost, fees, sold, profit`; every cell is
wrapped in double quotes with inner quotes doubled and rows are joined
by newline.  On the two-item scenario of spec §8.6 the output is exactly
these 4 rows, and the totals row's last field is `"23"`. -/
theorem exportCSV_spec :
    (∀ items, exportCSV items = exportCSVSpec items) ∧
    exportCSV exampleItems = joinSep "\n"
      ["\"name\",\"price\",\"cost\",\"amazonFees\",\"sold\",\"profit\"",
       "\"a\",\"10\",\"4\",\"1\",\"3\",\"15\"",
       "\"b\",\"20\",\"10\",\"2\",\"1\",\"8\"",
       "\"TOTALS\",\"50\",\"22\",\"5\",\"4\",\"23\""] := by
  constructor
  · intro items
    unfold exportCSV exportCSVSpec
    simp only [List.map_append, List.map_cons, List.map_nil, List.map_map,
      List.nil_append, List.cons_append, List.singleton_append, List.append_nil]
    refine congrArg (joinSep "\n") (congrArg₂ List.cons rfl (congrArg₂ HAppend.hAppend
      (List.map_congr_left fun it _ => ?_) rfl))
    rfl
  · with_unfolding_all decide
